import Mathlib

/-!
Verification of the Yandexlmscalcproject2sprint calculator service.

Shallow embedding of the orchestrator (package `application`,
src/unnamed/part_001) and the external agent (package `agent`,
src/unnamed/part_002).  Go `float64` values are modelled as rationals
(`ℚ`): all arithmetic the claims quantify over is exact there, and the
source's NaN/Infinity guards are vacuous in this number model.  Go maps
are modelled as association lists (the ID generator guarantees key
uniqueness, per the registry contract), and the buffered channel
`make(chan Task, 10)` as a FIFO list with an explicit capacity bound.
-/

namespace CalcService

/-- Request is the decoded body of a submission (part_001 lines 19-21). -/
structure Request where
  Expression : String
  deriving DecidableEq, Repr

/-- Expression is a registry record (part_001 lines 24-29).  `Result` has
Go's zero value `0` until completion, matching the `float64` field. -/
structure Expr where
  ID : String
  Expression : String
  Status : String
  Result : ℚ
  deriving DecidableEq, Repr

/-- Task is a unit of work (part_001 lines 32-38).  `OperationTime` is
never set by the submit handler, so it stays at Go's zero value. -/
structure Task where
  ID : String
  Arg1 : ℚ
  Arg2 : ℚ
  Operation : String
  OperationTime : ℤ
  deriving DecidableEq, Repr

/-- ServerState bundles the two process-global variables of part_001
lines 41-42: the `expressions` map and the `tasks` buffered channel. -/
structure ServerState where
  expressions : List (String × Expr)
  tasks : List Task
  deriving DecidableEq, Repr

/-- queueCapacity is the buffer size of `make(chan Task, 10)`
(part_001 line 42). -/
def queueCapacity : ℕ := 10

/-- lookupExpr models Go map read `expressions[id]`. -/
def lookupExpr (m : List (String × Expr)) (id : String) : Option Expr :=
  (m.find? (fun p => p.1 = id)).map (fun p => p.2)

/-- insertExpr models Go map insert of a fresh key (the generator's
uniqueness contract means the key is not yet present). -/
def insertExpr (m : List (String × Expr)) (id : String) (e : Expr) :
    List (String × Expr) :=
  m ++ [(id, e)]

/-- setStatus models the pointer write `expr.Status = s` seen through the
map (part_001 line 134). -/
def setStatus (m : List (String × Expr)) (id : String) (s : String) :
    List (String × Expr) :=
  m.map (fun p => if p.1 = id then (p.1, { p.2 with Status := s }) else p)

/-- markCompleted models the completion write of part_001 lines 216-222:
if the ID is found, set status `completed` and store the result. -/
def markCompleted (m : List (String × Expr)) (id : String) (r : ℚ) :
    List (String × Expr) :=
  m.map (fun p =>
    if p.1 = id then (p.1, { p.2 with Status := "completed", Result := r })
    else p)

/-- tryEnqueue models the non-blocking `select \x7b case tasks <- task ...
default ... \x7d` send of part_001 lines 129-139: the send succeeds exactly
when the buffer has room. -/
def tryEnqueue (q : List Task) (t : Task) : Option (List Task) :=
  if q.length < queueCapacity then some (q ++ [t]) else none

/-- tryDequeue models the non-blocking receive of `getNextTaskToProcess`
(part_001 lines 182-189). -/
def tryDequeue (q : List Task) : Option (Task × List Task) :=
  match q with
  | [] => none
  | t :: rest => some (t, rest)

/-- digitsToNat folds a list of decimal digit characters into a number. -/
def digitsToNat (cs : List Char) : ℕ :=
  cs.foldl (fun n c => 10 * n + (c.toNat - 48)) 0

/-- allDigits checks that a character list is nonempty and all digits. -/
def allDigits (cs : List Char) : Bool :=
  !cs.isEmpty && cs.all Char.isDigit

/-- splitOnCharP splits a character list at every character satisfying
the predicate, keeping (possibly empty) groups, like `strings.Split`. -/
def splitOnCharP (p : Char → Bool) : List Char → List (List Char)
  | [] => [[]]
  | x :: rest =>
      if p x then [] :: splitOnCharP p rest
      else
        match splitOnCharP p rest with
        | [] => [[x]]
        | g :: gs => (x :: g) :: gs

/-- parseUnsigned parses an unsigned decimal mantissa (digits with an
optional single decimal point, at least one digit overall), the decimal
core of Go's `strconv.ParseFloat` grammar, valued in the rational number
model. -/
def parseUnsigned (cs : List Char) : Option ℚ :=
  match splitOnCharP (fun c => c = '.') cs with
  | [ip] => if allDigits ip then some (digitsToNat ip) else none
  | [ip, fp] =>
      if (ip ++ fp).all Char.isDigit ∧ !(ip ++ fp).isEmpty then
        some ((digitsToNat ip : ℚ) + (digitsToNat fp : ℚ) / 10 ^ fp.length)
      else none
  | _ => none

/-- parseSigned parses an optional leading sign before a mantissa. -/
def parseSigned (cs : List Char) : Option ℚ :=
  match cs with
  | '+' :: rest => parseUnsigned rest
  | '-' :: rest => (parseUnsigned rest).map (fun q => -q)
  | _ => parseUnsigned cs

/-- parseExpInt parses a signed decimal integer (an exponent). -/
def parseExpInt (cs : List Char) : Option ℤ :=
  match cs with
  | '+' :: rest => if allDigits rest then some (digitsToNat rest) else none
  | '-' :: rest => if allDigits rest then some (-(digitsToNat rest : ℤ)) else none
  | _ => if allDigits cs then some (digitsToNat cs) else none

/-- ParseFloat models `strconv.ParseFloat(s, 64)` on the decimal syntax
`[sign] digits [. digits] [e [sign] digits]`, valued in the rational
number model (no rounding, no Inf/NaN literals, no hex floats). -/
def ParseFloat (s : String) : Option ℚ :=
  match splitOnCharP (fun c => c = 'e' ∨ c = 'E') s.data with
  | [m] => parseSigned m
  | [m, ex] =>
      match parseSigned m, parseExpInt ex with
      | some mv, some ev => some (mv * (10 : ℚ) ^ ev)
      | _, _ => none
  | _ => none

/-- fieldsAux walks the characters accumulating the current token
(reversed); whitespace closes a token. -/
def fieldsAux : List Char → List Char → List String
  | [], acc => if acc.isEmpty then [] else [String.mk acc.reverse]
  | c :: rest, acc =>
      if c.isWhitespace then
        if acc.isEmpty then fieldsAux rest []
        else String.mk acc.reverse :: fieldsAux rest []
      else fieldsAux rest (c :: acc)

/-- fields models `strings.Fields`: split around runs of whitespace,
dropping empty tokens. -/
def fields (s : String) : List String :=
  fieldsAux s.data []

/-- parseExpression embeds part_001 lines 77-92: split the input into
whitespace-separated tokens; demand exactly three; parse tokens 0 and 2
as floats; demand token 1 be one of the four operators. -/
def parseExpression (expr : String) : Except String (ℚ × ℚ × String) :=
  match fields expr with
  | [p0, p1, p2] =>
      match ParseFloat p0, ParseFloat p2 with
      | some arg1, some arg2 =>
          if p1 = "+" ∨ p1 = "-" ∨ p1 = "*" ∨ p1 = "/" then
            .ok (arg1, arg2, p1)
          else .error ("unsupported operator: " ++ p1)
      | _, _ => .error "error parsing numbers"
  | _ => .error "invalid expression format, expected format: <number> <operator> <number>"

/-- Body is the payload of an HTTP response as the handlers build it. -/
inductive Body where
  | errText (msg : String)
  | jsonId (id : String)
  | jsonTask (t : Task)
  | jsonExpr (e : Expr)
  | jsonList (es : List Expr)
  deriving DecidableEq, Repr

/-- Response is an HTTP status code plus the body written with it. -/
structure Response where
  status : ℕ
  body : Body
  deriving DecidableEq, Repr

/-- AddExpressionHandler embeds part_001 lines 95-143.  JSON decoding is
external: the handler receives `none` when `Decode` failed, otherwise the
decoded request.  ID generation is external: `freshId` is the opaque
unique string `generateUniqueID` returned.  On parse success the record
is inserted with status `pending`; then the non-blocking send is tried:
on success the status becomes `processing` and the reply is 201 with the
new ID, on a full buffer the reply is 500 and the record stays
`pending`. -/
def AddExpressionHandler (st : ServerState) (decoded : Option Request)
    (freshId : String) : ServerState × Response :=
  match decoded with
  | none => (st, ⟨400, .errText "invalid expression payload"⟩)
  | some req =>
    match parseExpression req.Expression with
    | .error e => (st, ⟨400, .errText e⟩)
    | .ok (arg1, arg2, operator) =>
      let expr : Expr := ⟨freshId, req.Expression, "pending", 0⟩
      let st1 : ServerState :=
        { st with expressions := insertExpr st.expressions freshId expr }
      let task : Task := ⟨freshId, arg1, arg2, operator, 0⟩
      match tryEnqueue st1.tasks task with
      | some q =>
          ({ st1 with
              tasks := q,
              expressions := setStatus st1.expressions freshId "processing" },
            ⟨201, .jsonId freshId⟩)
      | none => (st1, ⟨500, .errText "канал задач переполнен"⟩)

/-- GetExpressionsHandler embeds part_001 lines 145-155: reply 200 with
the values of the registry map. -/
def GetExpressionsHandler (st : ServerState) : ServerState × Response :=
  (st, ⟨200, .jsonList (st.expressions.map (fun p => p.2))⟩)

/-- GetExpressionByIDHandler embeds part_001 lines 157-168. -/
def GetExpressionByIDHandler (st : ServerState) (id : String) :
    ServerState × Response :=
  match lookupExpr st.expressions id with
  | none => (st, ⟨404, .errText "expression not found"⟩)
  | some e => (st, ⟨200, .jsonExpr e⟩)

/-- getNextTaskToProcess embeds part_001 lines 182-189: a non-blocking
receive from the task channel. -/
def getNextTaskToProcess (st : ServerState) :
    Option Task × ServerState :=
  match tryDequeue st.tasks with
  | none => (none, st)
  | some (t, rest) => (some t, { st with tasks := rest })

/-- GetTaskHandler embeds part_001 lines 170-179. -/
def GetTaskHandler (st : ServerState) : ServerState × Response :=
  match getNextTaskToProcess st with
  | (none, st') => (st', ⟨404, .errText "no task available"⟩)
  | (some t, st') => (st', ⟨200, .jsonTask t⟩)

/-- computeResult embeds the switch of part_001 lines 193-213: the four
operator cases, with `/` by zero returning early (`none`, the task is
dropped).  An unrecognized operator leaves Go's `var result float64` at
its zero value and falls through, so it yields `some 0`.  The subsequent
NaN/Infinity early return is vacuous in the rational number model
(finite operands give finite results). -/
def computeResult (t : Task) : Option ℚ :=
  match t.Operation with
  | "+" => some (t.Arg1 + t.Arg2)
  | "-" => some (t.Arg1 - t.Arg2)
  | "*" => some (t.Arg1 * t.Arg2)
  | "/" => if t.Arg2 = 0 then none else some (t.Arg1 / t.Arg2)
  | _ => some 0

/-- evalArith is the specification-side "exact arithmetic evaluation of
`<number> <op> <number>`" for the four supported operators, written from
the spec's words to compare the task processor against. -/
def evalArith (a : ℚ) (op : String) (b : ℚ) : ℚ :=
  if op = "+" then a + b
  else if op = "-" then a - b
  else if op = "*" then a * b
  else a / b

/-- processTask embeds part_001 lines 192-225: compute the result; on an
early return (division by zero) the state is untouched; otherwise mark
the owning expression completed with the result, under the mutex. -/
def processTask (st : ServerState) (t : Task) : ServerState :=
  match computeResult t with
  | none => st
  | some r => { st with expressions := markCompleted st.expressions t.ID r }

/-- Method distinguishes the HTTP verbs the router registers. -/
inductive Method where
  | GET
  | POST
  deriving DecidableEq, Repr

/-- Seg is one segment of a gorilla/mux route pattern: a literal, or a
`\x7bname\x7d` variable. -/
inductive Seg where
  | lit (s : String)
  | variable (name : String)
  deriving DecidableEq, Repr

/-- Route is a registered pattern with its allowed method. -/
structure Route where
  method : Method
  pattern : List Seg
  deriving DecidableEq, Repr

/-- routes lists exactly the four registrations of `RunServer`
(part_001 lines 244-247): POST /api/v1/calculate, GET /api/v1/expressions,
GET /api/v1/expressions/\x7bid\x7d, GET /internal/task.  No other route —
in particular no POST route for /internal/task — is registered. -/
def routes : List Route :=
  [ ⟨.POST, [.lit "api", .lit "v1", .lit "calculate"]⟩,
    ⟨.GET, [.lit "api", .lit "v1", .lit "expressions"]⟩,
    ⟨.GET, [.lit "api", .lit "v1", .lit "expressions", .variable "id"]⟩,
    ⟨.GET, [.lit "internal", .lit "task"]⟩ ]

/-- segMatches checks one pattern segment against one path segment. -/
def segMatches (s : Seg) (seg : String) : Bool :=
  match s with
  | .lit l => l == seg
  | .variable _ => true

/-- routeMatches checks a route against a method and a split path. -/
def routeMatches (r : Route) (m : Method) (path : List String) : Bool :=
  m == r.method && r.pattern.length == path.length &&
    (r.pattern.zip path).all (fun p => segMatches p.1 p.2)

/-- dispatch returns the index of the first registered route matching the
method and path, as the mux router would select a handler. -/
def dispatch (m : Method) (path : List String) : Option ℕ :=
  (routes.findIdx? (fun r => routeMatches r m path))

end CalcService

namespace Agent

/-- AgentTask mirrors the agent's task struct (part_002 lines 14-19). -/
structure AgentTask where
  ID : String
  Arg1 : ℚ
  Arg2 : ℚ
  Operation : String
  deriving DecidableEq, Repr

/-- AgentResult mirrors the agent's result struct (part_002 lines 21-24),
the body `sendResult` posts. -/
structure AgentResult where
  ID : String
  Result : ℚ
  deriving DecidableEq, Repr

/-- Modelled from the spec: `calculation.Calc` (package pkg/calculation,
absent from src) applies the operator to the two operands with standard
arithmetic semantics, in the rational number model.  Only the non-zero
operand branch of `performCalculation` reaches it. -/
def Calc (a : ℚ) (op : String) (b : ℚ) : Except String ℚ :=
  match op with
  | "+" => .ok (a + b)
  | "-" => .ok (a - b)
  | "*" => .ok (a * b)
  | "/" => if b = 0 then .error "division by zero" else .ok (a / b)
  | _ => .error "invalid operation"

/-- performCalculation embeds part_002 lines 72-88: any task with a zero
operand (either one, whatever the operation) is rejected with an error
before any computation; otherwise the expression string is handed to
`Calc`. -/
def performCalculation (t : AgentTask) : Except String ℚ :=
  if t.Arg1 = 0 ∨ t.Arg2 = 0 then
    .error "invalid arguments, task.Arg1 and task.Arg2 must not be zero"
  else Calc t.Arg1 t.Operation t.Arg2

/-- agentStep embeds one iteration of `Start` (part_002 lines 26-51)
after a task was pulled: on a calculation error the loop logs and
continues without reporting (`none`); on success it reports the result
via `sendResult` (`some`). -/
def agentStep (t : AgentTask) : Option AgentResult :=
  match performCalculation t with
  | .error _ => none
  | .ok r => some ⟨t.ID, r⟩

end Agent

namespace Locks

/-- Ev is one event of a handler's interaction with the `expressions` map
and its mutex, in source order. -/
inductive Ev where
  | lock
  | unlock
  | readMap
  | writeMap
  deriving DecidableEq, Repr

/-- addExpressionEvents lists, in source order, the registry accesses of
`AddExpressionHandler` (part_001 lines 95-143) as a function of which
branch runs: on decode or parse failure there is no access; otherwise the
insert at lines 117-119 is `Lock; write; Unlock`, and on a successful
enqueue the status update at lines 133-135 is `Lock; write; Unlock`. -/
def addExpressionEvents (decodeOk parseOk enqOk : Bool) : List Ev :=
  if decodeOk && parseOk then
    [.lock, .writeMap, .unlock] ++
      (if enqOk then [.lock, .writeMap, .unlock] else [])
  else []

/-- getExpressionsEvents lists the registry accesses of
`GetExpressionsHandler` (part_001 lines 145-155): the map is iterated
with no mutex acquisition anywhere in the function. -/
def getExpressionsEvents : List Ev := [.readMap]

/-- getExpressionByIdEvents lists the registry accesses of
`GetExpressionByIDHandler` (part_001 lines 157-168): the map is read with
no mutex acquisition anywhere in the function. -/
def getExpressionByIdEvents : List Ev := [.readMap]

/-- processTaskEvents lists the registry accesses of `processTask`
(part_001 lines 192-225): on the division-by-zero early return there is
no access; otherwise lines 216-222 are `Lock; read; (write if found);
Unlock`. -/
def processTaskEvents (dropped found : Bool) : List Ev :=
  if dropped then []
  else [.lock, .readMap] ++ (if found then [.writeMap] else []) ++ [.unlock]

/-- accessesLocked checks that every map read or write in an event trace
happens while the mutex is held (lock depth positive). -/
def accessesLocked : List Ev → ℕ → Bool
  | [], _ => true
  | .lock :: rest, d => accessesLocked rest (d + 1)
  | .unlock :: rest, d => accessesLocked rest (d - 1)
  | .readMap :: rest, d => d != 0 && accessesLocked rest d
  | .writeMap :: rest, d => d != 0 && accessesLocked rest d

end Locks

namespace CalcService

/-- Lookup on a cons cell inspects the head key first, like `find?`. -/
theorem lookupExpr_cons (p : String × Expr) (m : List (String × Expr)) (id : String) :
    lookupExpr (p :: m) id = if p.1 = id then some p.2 else lookupExpr m id := by
  by_cases h1 : p.1 = id <;> simp [lookupExpr, List.find?, h1]

/-- Inserting a fresh key at the back makes it visible to lookup. -/
theorem lookupExpr_append_fresh (m : List (String × Expr)) (id : String) (e : Expr)
    (h : lookupExpr m id = none) :
    lookupExpr (m ++ [(id, e)]) id = some e := by
  induction m with
  | nil => simp [lookupExpr, List.find?]
  | cons p m ih =>
      rw [lookupExpr_cons] at h
      rw [List.cons_append, lookupExpr_cons]
      by_cases h1 : p.1 = id
      · rw [if_pos h1] at h; cases h
      · rw [if_neg h1] at h ⊢; exact ih h

/-- Pointwise update of one key commutes with lookup of that key. -/
theorem lookupExpr_mapUpdate (f : Expr → Expr) (m : List (String × Expr)) (id : String) :
    lookupExpr (m.map (fun p => if p.1 = id then (p.1, f p.2) else p)) id
      = (lookupExpr m id).map f := by
  induction m with
  | nil => rfl
  | cons p m ih =>
      by_cases h1 : p.1 = id
      · simp [List.map, lookupExpr_cons, h1]
      · simp [List.map, lookupExpr_cons, h1, ih]

/-- Status update seen through lookup. -/
theorem lookupExpr_setStatus (m : List (String × Expr)) (id s : String) :
    lookupExpr (setStatus m id s) id
      = (lookupExpr m id).map (fun e => { e with Status := s }) :=
  lookupExpr_mapUpdate (fun e => { e with Status := s }) m id

/-- Completion update seen through lookup. -/
theorem lookupExpr_markCompleted (m : List (String × Expr)) (id : String) (r : ℚ) :
    lookupExpr (markCompleted m id r) id
      = (lookupExpr m id).map
          (fun e => { e with Status := "completed", Result := r }) :=
  lookupExpr_mapUpdate (fun e => { e with Status := "completed", Result := r }) m id

/-- Parse success forces the input shape: three tokens, two floats, one
of the four operators. -/
theorem parseExpression_ok_shape (s : String) (a b : ℚ) (op : String)
    (h : parseExpression s = .ok (a, b, op)) :
    ∃ t1 t3, fields s = [t1, op, t3] ∧ ParseFloat t1 = some a ∧
      ParseFloat t3 = some b ∧ (op = "+" ∨ op = "-" ∨ op = "*" ∨ op = "/") := by
  rcases hl : fields s with _ | ⟨t1, _ | ⟨t2, _ | ⟨t3, _ | ⟨t4, rest⟩⟩⟩⟩ <;>
    simp [parseExpression, hl] at h
  rcases hp1 : ParseFloat t1 with _ | a1 <;> rcases hp3 : ParseFloat t3 with _ | a2 <;>
    simp [hp1, hp3] at h
  split at h
  · rename_i hcond
    cases h
    exact ⟨t1, t3, rfl, hp1, hp3, hcond⟩
  · cases h

/-- The input shape is also sufficient for parse success. -/
theorem parseExpression_ok_of_shape (s t1 t3 : String) (a b : ℚ) (op : String)
    (hl : fields s = [t1, op, t3]) (hp1 : ParseFloat t1 = some a)
    (hp3 : ParseFloat t3 = some b)
    (hop : op = "+" ∨ op = "-" ∨ op = "*" ∨ op = "/") :
    parseExpression s = .ok (a, b, op) := by
  simp [parseExpression, hl, hp1, hp3]
  tauto

end CalcService

namespace CalcService

/-- C1: for every expression string accepted by the parser, with a
nonzero second operand when the operator is `/`, processing the derived
task sets the owning expression's status to `completed` and its result to
the exact arithmetic evaluation. -/
theorem processTask_completes (s : String) (st : ServerState) (id : String)
    (a b : ℚ) (op : String) (e : Expr)
    (hp : parseExpression s = .ok (a, b, op))
    (hdiv : op = "/" → b ≠ 0)
    (he : lookupExpr st.expressions id = some e) :
    ∃ e', lookupExpr (processTask st ⟨id, a, b, op, 0⟩).expressions id = some e' ∧
      e'.Status = "completed" ∧ e'.Result = evalArith a op b := by
  obtain ⟨t1, t3, _, _, _, hop⟩ := parseExpression_ok_shape s a b op hp
  rcases hop with rfl | rfl | rfl | rfl
  · simp only [processTask, computeResult]
    rw [lookupExpr_markCompleted, he]
    exact ⟨_, rfl, rfl, by simp [evalArith]⟩
  · simp only [processTask, computeResult]
    rw [lookupExpr_markCompleted, he]
    exact ⟨_, rfl, rfl, by simp [evalArith]⟩
  · simp only [processTask, computeResult]
    rw [lookupExpr_markCompleted, he]
    exact ⟨_, rfl, rfl, by simp [evalArith]⟩
  · simp only [processTask, computeResult, if_neg (hdiv rfl)]
    rw [lookupExpr_markCompleted, he]
    exact ⟨_, rfl, rfl, by simp [evalArith]⟩

/-- C1 witness at the concrete division task 8 / 2. -/
theorem processTask_completes_witness :
    parseExpression "8 / 2" = .ok (8, 2, "/") ∧
    ∃ e', lookupExpr (processTask ⟨[("X", ⟨"X", "8 / 2", "processing", 0⟩)], []⟩
        ⟨"X", 8, 2, "/", 0⟩).expressions "X" = some e' ∧
      e'.Status = "completed" ∧ e'.Result = evalArith 8 "/" 2 :=
  ⟨rfl, processTask_completes "8 / 2" ⟨[("X", ⟨"X", "8 / 2", "processing", 0⟩)], []⟩
    "X" 8 2 "/" ⟨"X", "8 / 2", "processing", 0⟩ rfl (fun _ => by simp) rfl⟩

end CalcService

namespace CalcService

/-- C2: the parser succeeds, returning the two operands and the operator,
exactly when the input splits into three whitespace-separated tokens with
numeric first and third token and a supported operator second; on any
parse failure the submit handler returns the error with a 400 status and
leaves the registry and the task queue untouched. -/
theorem parseExpression_spec (s : String) :
    (∀ a b op, parseExpression s = .ok (a, b, op) ↔
      ∃ t1 t3, fields s = [t1, op, t3] ∧ ParseFloat t1 = some a ∧
        ParseFloat t3 = some b ∧
        (op = "+" ∨ op = "-" ∨ op = "*" ∨ op = "/"))
    ∧ (∀ msg, parseExpression s = .error msg →
        ∀ st freshId req, req.Expression = s →
          AddExpressionHandler st (some req) freshId
            = (st, ⟨400, .errText msg⟩)) := by
  constructor
  · intro a b op
    constructor
    · exact parseExpression_ok_shape s a b op
    · rintro ⟨t1, t3, hl, hp1, hp3, hop⟩
      exact parseExpression_ok_of_shape s t1 t3 a b op hl hp1 hp3 hop
  · intro msg hmsg st freshId req hreq
    simp [AddExpressionHandler, hreq, hmsg]

/-- C2 witness: a success and a failure instance through the theorem. -/
theorem parseExpression_spec_witness :
    parseExpression "3 + 4" = .ok (3, 4, "+") ∧
    AddExpressionHandler ⟨[], []⟩ (some ⟨"1 ^ 2"⟩) "X"
      = (⟨[], []⟩, ⟨400, .errText "unsupported operator: ^"⟩) :=
  ⟨((parseExpression_spec "3 + 4").1 3 4 "+").mpr
      ⟨"3", "4", rfl, rfl, rfl, Or.inl rfl⟩,
    (parseExpression_spec "1 ^ 2").2 "unsupported operator: ^" rfl
      ⟨[], []⟩ "X" ⟨"1 ^ 2"⟩ rfl⟩

/-- C3: every malformed submission (undecodable body or parse failure)
gets a 400 client error, the server state is unchanged, and the list
endpoint shows the same records as before. -/
theorem AddExpressionHandler_malformed (st : ServerState)
    (decoded : Option Request) (freshId : String)
    (h : decoded = none ∨
      ∃ req msg, decoded = some req ∧
        parseExpression req.Expression = .error msg) :
    (AddExpressionHandler st decoded freshId).2.status = 400 ∧
    (AddExpressionHandler st decoded freshId).1 = st ∧
    GetExpressionsHandler (AddExpressionHandler st decoded freshId).1
      = GetExpressionsHandler st := by
  rcases h with rfl | ⟨req, msg, rfl, hmsg⟩
  · exact ⟨rfl, rfl, rfl⟩
  · simp [AddExpressionHandler, hmsg]

/-- C3 witness at a wrong token count. -/
theorem AddExpressionHandler_malformed_witness :
    (AddExpressionHandler ⟨[], []⟩ (some ⟨"abc"⟩) "X").2.status = 400 ∧
    (AddExpressionHandler ⟨[], []⟩ (some ⟨"abc"⟩) "X").1 = ⟨[], []⟩ ∧
    GetExpressionsHandler (AddExpressionHandler ⟨[], []⟩ (some ⟨"abc"⟩) "X").1
      = GetExpressionsHandler ⟨[], []⟩ :=
  AddExpressionHandler_malformed ⟨[], []⟩ (some ⟨"abc"⟩) "X"
    (Or.inr ⟨⟨"abc"⟩, _, rfl, rfl⟩)

/-- C4: the queue capacity is fixed at 10; with the queue already holding
10 tasks the enqueue attempt fails at once, the handler answers 500, the
queue is unchanged, and the freshly created expression stays `pending`. -/
theorem AddExpressionHandler_queueFull (st : ServerState) (req : Request)
    (freshId : String) (a b : ℚ) (op : String)
    (hp : parseExpression req.Expression = .ok (a, b, op))
    (hfull : st.tasks.length = queueCapacity)
    (hfresh : lookupExpr st.expressions freshId = none) :
    queueCapacity = 10 ∧
    tryEnqueue st.tasks ⟨freshId, a, b, op, 0⟩ = none ∧
    (AddExpressionHandler st (some req) freshId).2
      = ⟨500, .errText "канал задач переполнен"⟩ ∧
    (AddExpressionHandler st (some req) freshId).1.tasks = st.tasks ∧
    lookupExpr (AddExpressionHandler st (some req) freshId).1.expressions freshId
      = some ⟨freshId, req.Expression, "pending", 0⟩ := by
  have henq : ∀ t : Task, tryEnqueue st.tasks t = none := by
    intro t
    simp [tryEnqueue, hfull]
  refine ⟨rfl, henq _, ?_, ?_, ?_⟩
  all_goals simp only [AddExpressionHandler, hp, henq]
  all_goals simp [insertExpr, lookupExpr_append_fresh st.expressions freshId _ hfresh]

/-- C4 witness with ten queued tasks. -/
theorem AddExpressionHandler_queueFull_witness :
    queueCapacity = 10 ∧
    tryEnqueue (List.replicate 10 ⟨"T", 1, 1, "+", 0⟩) ⟨"X", 1, 2, "+", 0⟩ = none ∧
    (AddExpressionHandler ⟨[], List.replicate 10 ⟨"T", 1, 1, "+", 0⟩⟩
        (some ⟨"1 + 2"⟩) "X").2
      = ⟨500, .errText "канал задач переполнен"⟩ ∧
    (AddExpressionHandler ⟨[], List.replicate 10 ⟨"T", 1, 1, "+", 0⟩⟩
        (some ⟨"1 + 2"⟩) "X").1.tasks = List.replicate 10 ⟨"T", 1, 1, "+", 0⟩ ∧
    lookupExpr (AddExpressionHandler ⟨[], List.replicate 10 ⟨"T", 1, 1, "+", 0⟩⟩
        (some ⟨"1 + 2"⟩) "X").1.expressions "X"
      = some ⟨"X", "1 + 2", "pending", 0⟩ :=
  AddExpressionHandler_queueFull ⟨[], List.replicate 10 ⟨"T", 1, 1, "+", 0⟩⟩
    ⟨"1 + 2"⟩ "X" 1 2 "+" rfl rfl rfl

/-- C5: on parse success with room in the queue, the handler answers 201
carrying the fresh ID, the new expression goes from `pending` at creation
to `processing`, and the task is appended to the queue. -/
theorem AddExpressionHandler_success (st : ServerState) (req : Request)
    (freshId : String) (a b : ℚ) (op : String)
    (hp : parseExpression req.Expression = .ok (a, b, op))
    (hroom : st.tasks.length < queueCapacity)
    (hfresh : lookupExpr st.expressions freshId = none) :
    (AddExpressionHandler st (some req) freshId).2 = ⟨201, .jsonId freshId⟩ ∧
    (AddExpressionHandler st (some req) freshId).1.expressions
      = setStatus (insertExpr st.expressions freshId
          ⟨freshId, req.Expression, "pending", 0⟩) freshId "processing" ∧
    lookupExpr (AddExpressionHandler st (some req) freshId).1.expressions freshId
      = some ⟨freshId, req.Expression, "processing", 0⟩ ∧
    (AddExpressionHandler st (some req) freshId).1.tasks
      = st.tasks ++ [⟨freshId, a, b, op, 0⟩] := by
  refine ⟨?_, ?_, ?_, ?_⟩
  all_goals simp only [AddExpressionHandler, hp, tryEnqueue, if_pos hroom]
  all_goals rw [lookupExpr_setStatus, insertExpr,
    lookupExpr_append_fresh st.expressions freshId _ hfresh]
  all_goals rfl

/-- C5 witness on the empty state. -/
theorem AddExpressionHandler_success_witness :
    (AddExpressionHandler ⟨[], []⟩ (some ⟨"1 + 2"⟩) "X").2 = ⟨201, .jsonId "X"⟩ ∧
    (AddExpressionHandler ⟨[], []⟩ (some ⟨"1 + 2"⟩) "X").1.expressions
      = setStatus (insertExpr [] "X" ⟨"X", "1 + 2", "pending", 0⟩) "X" "processing" ∧
    lookupExpr (AddExpressionHandler ⟨[], []⟩ (some ⟨"1 + 2"⟩) "X").1.expressions "X"
      = some ⟨"X", "1 + 2", "processing", 0⟩ ∧
    (AddExpressionHandler ⟨[], []⟩ (some ⟨"1 + 2"⟩) "X").1.tasks
      = [] ++ [⟨"X", 1, 2, "+", 0⟩] :=
  AddExpressionHandler_success ⟨[], []⟩ ⟨"1 + 2"⟩ "X" 1 2 "+" rfl (by decide) rfl

/-- C6: a division task with zero divisor is dropped: the whole server
state is untouched, so an expression sitting at `processing` keeps that
status and is never marked `completed` or `failed`. -/
theorem processTask_divzero (st : ServerState) (t : Task)
    (hop : t.Operation = "/") (hz : t.Arg2 = 0) :
    processTask st t = st ∧
    ∀ e, lookupExpr st.expressions t.ID = some e → e.Status = "processing" →
      lookupExpr (processTask st t).expressions t.ID = some e ∧
        e.Status ≠ "completed" ∧ e.Status ≠ "failed" := by
  have hst : processTask st t = st := by
    simp [processTask, computeResult, hop, hz]
  refine ⟨hst, ?_⟩
  intro e he hs
  rw [hst]
  exact ⟨he, by simp [hs], by simp [hs]⟩

/-- C6 witness at the task 1 / 0. -/
theorem processTask_divzero_witness :
    processTask ⟨[("X", ⟨"X", "1 / 0", "processing", 0⟩)], []⟩ ⟨"X", 1, 0, "/", 0⟩
      = ⟨[("X", ⟨"X", "1 / 0", "processing", 0⟩)], []⟩ ∧
    ∀ e, lookupExpr [("X", ⟨"X", "1 / 0", "processing", 0⟩)] "X" = some e →
      e.Status = "processing" →
      lookupExpr (processTask ⟨[("X", ⟨"X", "1 / 0", "processing", 0⟩)], []⟩
          ⟨"X", 1, 0, "/", 0⟩).expressions "X" = some e ∧
        e.Status ≠ "completed" ∧ e.Status ≠ "failed" :=
  processTask_divzero ⟨[("X", ⟨"X", "1 / 0", "processing", 0⟩)], []⟩
    ⟨"X", 1, 0, "/", 0⟩ rfl rfl

end CalcService

/-- C7: the router of `RunServer` registers no POST route for
/internal/task (index 3 is GET-only), so the agent's `sendResult` POST,
for example the body id X result 7, matches no handler and
`mark_completed` is never reachable over HTTP. -/
theorem no_report_result_route :
    CalcService.dispatch CalcService.Method.POST ["internal", "task"] = none ∧
    CalcService.dispatch CalcService.Method.GET ["internal", "task"] = some 3 ∧
    CalcService.routes.length = 4 :=
  ⟨rfl, rfl, rfl⟩

/-- C8 counterexample: the claimed submission "3 4 +" is postfix; the
parser requires the operator in the middle, so the submit handler rejects
it with 400 and creates nothing. -/
theorem submit_postfix_rejected :
    CalcService.AddExpressionHandler ⟨[], []⟩ (some ⟨"3 4 +"⟩) "X"
      = (⟨[], []⟩, ⟨400, .errText "error parsing numbers"⟩) := rfl

/-- C8 amended: submitting the infix "3 + 4" yields id X in a 201 reply,
a poll returns the task (X, 3, 4, +), the in-process task processor then
completes it with 7, and the get-by-id endpoint reports status
`completed` with result 7. -/
theorem submit_infix_pipeline :
    CalcService.AddExpressionHandler ⟨[], []⟩ (some ⟨"3 + 4"⟩) "X"
      = (⟨[("X", ⟨"X", "3 + 4", "processing", 0⟩)], [⟨"X", 3, 4, "+", 0⟩]⟩,
          ⟨201, .jsonId "X"⟩) ∧
    CalcService.GetTaskHandler
        ⟨[("X", ⟨"X", "3 + 4", "processing", 0⟩)], [⟨"X", 3, 4, "+", 0⟩]⟩
      = (⟨[("X", ⟨"X", "3 + 4", "processing", 0⟩)], []⟩,
          ⟨200, .jsonTask ⟨"X", 3, 4, "+", 0⟩⟩) ∧
    CalcService.processTask ⟨[("X", ⟨"X", "3 + 4", "processing", 0⟩)], []⟩
        ⟨"X", 3, 4, "+", 0⟩
      = ⟨[("X", ⟨"X", "3 + 4", "completed", 7⟩)], []⟩ ∧
    CalcService.GetExpressionByIDHandler
        ⟨[("X", ⟨"X", "3 + 4", "completed", 7⟩)], []⟩ "X"
      = (⟨[("X", ⟨"X", "3 + 4", "completed", 7⟩)], []⟩,
          ⟨200, .jsonExpr ⟨"X", "3 + 4", "completed", 7⟩⟩) := by
  refine ⟨rfl, rfl, ?_, rfl⟩
  simp [CalcService.processTask, CalcService.computeResult, CalcService.markCompleted]
  norm_num

/-- C9 counterexample: the list handler reads the registry map with no
mutex acquisition anywhere in its body. -/
theorem getExpressions_read_unlocked :
    Locks.accessesLocked Locks.getExpressionsEvents 0 = false := rfl

/-- C9 amended: the submit handler's insert and status update and the
task processor's completion update each run under the lock, but the list
snapshot and the get-by-id read access the map without acquiring it. -/
theorem lock_discipline_partial :
    (∀ dOk pOk eOk, Locks.accessesLocked (Locks.addExpressionEvents dOk pOk eOk) 0 = true)
    ∧ (∀ dr fd, Locks.accessesLocked (Locks.processTaskEvents dr fd) 0 = true)
    ∧ Locks.accessesLocked Locks.getExpressionsEvents 0 = false
    ∧ Locks.accessesLocked Locks.getExpressionByIdEvents 0 = false := by
  refine ⟨?_, ?_, rfl, rfl⟩ <;> decide

/-- C10: any task with a zero operand, whatever the operation, is
rejected by the agent's calculation with an error before computing, and
the agent step then reports nothing back. -/
theorem performCalculation_zero_rejected (t : Agent.AgentTask)
    (h : t.Arg1 = 0 ∨ t.Arg2 = 0) :
    Agent.performCalculation t
      = .error "invalid arguments, task.Arg1 and task.Arg2 must not be zero" ∧
    Agent.agentStep t = none := by
  have hc : Agent.performCalculation t
      = .error "invalid arguments, task.Arg1 and task.Arg2 must not be zero" := by
    rw [Agent.performCalculation, if_pos h]
  exact ⟨hc, by simp [Agent.agentStep, hc]⟩

/-- C10 witness at the task derived from "0 + 5". -/
theorem performCalculation_zero_rejected_witness :
    Agent.performCalculation ⟨"X", 0, 5, "+"⟩
      = .error "invalid arguments, task.Arg1 and task.Arg2 must not be zero" ∧
    Agent.agentStep ⟨"X", 0, 5, "+"⟩ = none :=
  performCalculation_zero_rejected ⟨"X", 0, 5, "+"⟩ (Or.inl rfl)
